import Mathlib

/-!
Shallow embedding of the WebTTY protocol bridge (package `webtty`,
file `webtty.go`) from the gotty repository.

Bytes are modelled as `Nat` (with an explicit `< 256` bound where byte
arithmetic matters).  The two connections are modelled by recording the
effects (writes to the master, writes to the slave, resize calls, audit
log emissions) that a call produces.  Fallible operations return
`Except String` or `Option`.
-/

namespace Webtty

/-- Modelled from the spec: the single-byte message type tags of the
protocol (defined in the repository outside `src/`).  Back-bound tags. -/
def Input : Nat := 49

/-- Modelled from the spec: keepalive ping tag (back-bound). -/
def Ping : Nat := 50

/-- Modelled from the spec: resize tag (back-bound). -/
def ResizeTerminal : Nat := 51

/-- Modelled from the spec: encoding-switch tag (back-bound). -/
def SetEncoding : Nat := 52

/-- Modelled from the spec: data tag (front-bound). -/
def Output : Nat := 49

/-- Modelled from the spec: keepalive pong tag (front-bound). -/
def Pong : Nat := 50

/-- Modelled from the spec: handshake window-title tag (front-bound). -/
def SetWindowTitle : Nat := 51

/-- Modelled from the spec: handshake preferences tag (front-bound). -/
def SetPreferences : Nat := 52

/-- Modelled from the spec: handshake reconnect tag (front-bound). -/
def SetReconnect : Nat := 53

/-- Modelled from the spec: handshake buffer-size tag (front-bound). -/
def SetBufferSize : Nat := 54

/-- Byte codes of an ASCII string, used for the wire comparisons that
`webtty.go` performs with `string(data[1:])`. -/
def strBytes (s : String) : List Nat := s.toList.map Char.toNat

/-! ### Base64 (the text-safe codec)

Modelled from the spec: the "reversible text-safe codec" is standard
base64 (`encoding/base64`, `StdEncoding`, used directly in `webtty.go`):
padded RFC 4648 alphabet, and the decoder rejects input whose length is
not a multiple of four, characters outside the alphabet, and padding
anywhere but at the end.  The Go decoder does not check the unused
trailing bits of a final partial group; neither does this model. -/

/-- The base64 alphabet: sextet value to ASCII character code. -/
def sextetToChar (n : Nat) : Nat :=
  if n < 26 then 65 + n
  else if n < 52 then 97 + (n - 26)
  else if n < 62 then 48 + (n - 52)
  else if n = 62 then 43
  else 47

/-- Inverse of the base64 alphabet: character code to sextet value,
`none` for characters outside the alphabet (including `=`, code 61). -/
def charToSextet (c : Nat) : Option Nat :=
  if 65 ≤ c ∧ c ≤ 90 then some (c - 65)
  else if 97 ≤ c ∧ c ≤ 122 then some (c - 97 + 26)
  else if 48 ≤ c ∧ c ≤ 57 then some (c - 48 + 52)
  else if c = 43 then some 62
  else if c = 47 then some 63
  else none

/-- Standard padded base64 encoding of a byte sequence
(`base64.StdEncoding.EncodeToString`).  61 is the code of `=`. -/
def base64Encode : List Nat → List Nat
  | [] => []
  | [a] => [sextetToChar (a / 4), sextetToChar (a % 4 * 16), 61, 61]
  | [a, b] =>
      [sextetToChar (a / 4), sextetToChar (a % 4 * 16 + b / 16),
       sextetToChar (b % 16 * 4), 61]
  | a :: b :: c :: rest =>
      sextetToChar (a / 4) :: sextetToChar (a % 4 * 16 + b / 16) ::
      sextetToChar (b % 16 * 4 + c / 64) :: sextetToChar (c % 64) ::
      base64Encode rest

/-- Standard padded base64 decoding (`base64.StdEncoding.Decode`):
`none` on malformed input, otherwise the decoded bytes. -/
def base64Decode : List Nat → Option (List Nat)
  | [] => some []
  | c1 :: c2 :: c3 :: c4 :: rest =>
      if rest = [] ∧ c3 = 61 ∧ c4 = 61 then
        (charToSextet c1).bind fun s1 =>
        (charToSextet c2).bind fun s2 =>
        some [s1 * 4 + s2 / 16]
      else if rest = [] ∧ c4 = 61 then
        (charToSextet c1).bind fun s1 =>
        (charToSextet c2).bind fun s2 =>
        (charToSextet c3).bind fun s3 =>
        some [s1 * 4 + s2 / 16, s2 % 16 * 16 + s3 / 4]
      else
        (charToSextet c1).bind fun s1 =>
        (charToSextet c2).bind fun s2 =>
        (charToSextet c3).bind fun s3 =>
        (charToSextet c4).bind fun s4 =>
        (base64Decode rest).bind fun out =>
        some ((s1 * 4 + s2 / 16) :: (s2 % 16 * 16 + s3 / 4) ::
              (s3 % 4 * 64 + s4) :: out)
  | _ => none

/-! ### The codec -/

/-- The two codecs selectable over the wire in `handleMasterReadEvent`:
`NullCodec` and `base64.StdEncoding`. -/
inductive Decoder where
  | nullCodec : Decoder
  | base64Codec : Decoder
deriving DecidableEq, Repr

/-- Modelled from the spec: the codec's decode operation (the `Decoder`
interface and `NullCodec` are defined in the repository outside `src/`).
The identity codec copies bytes unchanged; the text-safe codec is
standard base64 decoding and fails on malformed input. -/
def Decoder.decode : Decoder → List Nat → Option (List Nat)
  | .nullCodec, data => some data
  | .base64Codec, data => base64Decode data

/-! ### ANSI stripping and the audit sink -/

/-- Skips the remainder of a CSI escape sequence: every byte up to and
including the first final byte (range 64..126). -/
def dropCSI : List Nat → List Nat
  | [] => []
  | c :: rest => if 64 ≤ c ∧ c ≤ 126 then rest else dropCSI rest

/-- Skips the body of an escape sequence after the ESC byte: a CSI
sequence when the next byte is 91 (the bracket), otherwise one byte. -/
def dropEscape : List Nat → List Nat
  | [] => []
  | c :: rest => if c = 91 then dropCSI rest else rest

theorem dropCSI_length_le (l : List Nat) : (dropCSI l).length ≤ l.length := by
  induction l with
  | nil => simp [dropCSI]
  | cons c rest ih =>
      simp only [dropCSI]
      split
      · simp
      · exact Nat.le_succ_of_le ih

theorem dropEscape_length_le (l : List Nat) :
    (dropEscape l).length ≤ l.length := by
  cases l with
  | nil => simp [dropEscape]
  | cons c rest =>
      simp only [dropEscape]
      split
      · exact Nat.le_succ_of_le (dropCSI_length_le rest)
      · simp

/-- Fuel-based worker for `ansiStrip`; the fuel only serves structural
termination and never runs out when it starts at the input length,
because `dropEscape` never grows its argument. -/
def ansiStripFuel : Nat → List Nat → List Nat
  | 0, _ => []
  | _ + 1, [] => []
  | fuel + 1, c :: rest =>
      if c = 27 then ansiStripFuel fuel (dropEscape rest)
      else c :: ansiStripFuel fuel rest

/-- Modelled from the spec: `ansi.Strip` (external dependency), which
removes terminal escape sequences — byte 27 (ESC) together with the
sequence body it introduces — and keeps every other byte, carriage
returns included. -/
def ansiStrip (l : List Nat) : List Nat := ansiStripFuel l.length l

/-- Modelled from the spec: `utils.RemoveNonGraphicChar` (repository code
outside `src/`), which removes non-printable characters; for bytes this
keeps the graphic ASCII range 32..126. -/
def removeNonGraphicChar (l : List Nat) : List Nat :=
  l.filter (fun c => 32 ≤ c ∧ c ≤ 126)

/-- Index of the last occurrence of byte `b` (`bytes.LastIndexByte`),
`none` when absent. -/
def lastIndexByte (b : Nat) : List Nat → Option Nat
  | [] => none
  | c :: rest =>
      match lastIndexByte b rest with
      | some i => some (i + 1)
      | none => if c = b then some 0 else none

/-! ### The bridge state and its effects -/

/-- The bridge state: the fields of the Go `WebTTY` struct that the
protocol logic reads or writes (connection handles, mutex and logger
are represented by the recorded effects instead). -/
structure WebTTY where
  windowTitle : List Nat
  permitWrite : Bool
  columns : Int
  rows : Int
  reconnect : Int
  masterPrefs : Option (List Nat)
  username : String
  auditEnabled : Bool
  decoder : Decoder
  bufferSize : Nat
  feBuffer : List Nat
  beBuffer : List Nat
deriving DecidableEq, Repr

/-- The observable effects of one event-handling call: messages written
to the master connection, bytes written to the slave, resize calls on
the slave, and audit log lines emitted (their message content after
non-graphic stripping). -/
structure Effects where
  masterWrites : List (List Nat) := []
  slaveWrites : List (List Nat) := []
  resizeCalls : List (Int × Int) := []
  auditLines : List (List Nat) := []
deriving DecidableEq, Repr

/-- The message content of one audit log line (`printAuditLogs`): the
flushed bytes with non-graphic characters removed. -/
def printAuditLine (logs : List Nat) : List Nat :=
  removeNonGraphicChar logs

/-- `auditLogs`: when auditing is enabled, strips escape sequences from
the incoming bytes, appends them to the accumulator of the given
direction (`fromFe = true` is front-to-back), and if the result contains
a carriage return (byte 13) emits everything before the last one as a log
line and retains only the bytes after it.  Returns the new state and the
emitted lines. -/
def auditLogs (wt : WebTTY) (buffer : List Nat) (fromFe : Bool) :
    WebTTY × List (List Nat) :=
  if !wt.auditEnabled then (wt, [])
  else
    let stripped := ansiStrip buffer
    if fromFe then
      let fb := wt.feBuffer ++ stripped
      match lastIndexByte 13 fb with
      | some pos =>
          ({ wt with feBuffer := fb.drop (pos + 1) },
           [printAuditLine (fb.take pos)])
      | none => ({ wt with feBuffer := fb }, [])
    else
      let bb := wt.beBuffer ++ stripped
      match lastIndexByte 13 bb with
      | some pos =>
          ({ wt with beBuffer := bb.drop (pos + 1) },
           [printAuditLine (bb.take pos)])
      | none => ({ wt with beBuffer := bb }, [])

/-! ### Resize payload decoding -/

/-- Consumes leading decimal digits, accumulating their value. -/
def parseNumAux (acc : Nat) : List Nat → Nat × List Nat
  | [] => (acc, [])
  | c :: rest =>
      if 48 ≤ c ∧ c ≤ 57 then parseNumAux (acc * 10 + (c - 48)) rest
      else (acc, c :: rest)

/-- Parses a JSON integer (optional minus sign, then digits). -/
def parseInt : List Nat → Option (Int × List Nat)
  | 45 :: c :: rest =>
      if 48 ≤ c ∧ c ≤ 57 then
        let p := parseNumAux (c - 48) rest
        some (-(p.1 : Int), p.2)
      else none
  | c :: rest =>
      if 48 ≤ c ∧ c ≤ 57 then
        let p := parseNumAux (c - 48) rest
        some ((p.1 : Int), p.2)
      else none
  | [] => none

/-- The serialized `columns` member key, including the colon. -/
def keyColumns : List Nat := strBytes "\"columns\":"

/-- The serialized `rows` member key, including the colon. -/
def keyRows : List Nat := strBytes "\"rows\":"

/-- Parses one object member: a columns or rows key followed by an
integer value.  Returns which field it was, its value, and the rest. -/
def parsePair (l : List Nat) : Option ((Bool × Int) × List Nat) :=
  if keyColumns.isPrefixOf l then
    match parseInt (l.drop keyColumns.length) with
    | some (v, r) => some ((true, v), r)
    | none => none
  else if keyRows.isPrefixOf l then
    match parseInt (l.drop keyRows.length) with
    | some (v, r) => some ((false, v), r)
    | none => none
  else none

/-- Parses the members of the resize object, with fuel for termination;
125 is the closing brace, 44 the comma.  Unset fields keep value 0. -/
def parseMembers : Nat → List Nat → Int → Int → Option (Int × Int)
  | _, [], _, _ => none
  | 0, _ :: _, _, _ => none
  | fuel + 1, l, cs, rs =>
      match parsePair l with
      | none => none
      | some ((isCol, v), rest) =>
          let cs' := if isCol then v else cs
          let rs' := if isCol then rs else v
          match rest with
          | 125 :: rest' => if rest' = [] then some (cs', rs') else none
          | 44 :: rest' => parseMembers fuel rest' cs' rs'
          | _ => none

/-- Modelled from the spec: JSON decoding of the resize payload into two
numeric fields (`json.Unmarshal` into `argResizeTerminal`, stdlib code
outside `src/`).  Accepts an object whose members are `columns` and
`rows` with integer values; absent fields default to 0 as in Go; any
other input is a decode error.  123 is the opening brace. -/
def decodeResizeArgs : List Nat → Option (Int × Int)
  | 123 :: rest =>
      if rest = [125] then some (0, 0)
      else parseMembers rest.length rest 0 0
  | _ => none

/-! ### The event handlers -/

/-- `handleSlaveReadEvent`: the front-bound message built from one
back-connection read — the `Output` tag byte followed by the base64
encoding of the bytes read. -/
def handleSlaveReadEvent (data : List Nat) : List Nat :=
  Output :: base64Encode data

/-- `handleMasterReadEvent`: dispatches one front-connection message by
its leading tag byte, returning the new bridge state and the effects
produced, or a fatal error.  Slave and master writes themselves are
modelled as succeeding (their I/O errors are external). -/
def handleMasterReadEvent (wt : WebTTY) (data : List Nat) :
    Except String (WebTTY × Effects) :=
  match data with
  | [] => .error "unexpected zero length read from master"
  | t :: payload =>
    if t = Input then
      if wt.permitWrite = false then .ok (wt, {})
      else if payload = [] then .ok (wt, {})
      else
        match wt.decoder.decode payload with
        | none => .error "failed to decode received data"
        | some decoded =>
            let r := auditLogs wt decoded true
            .ok (r.1, { slaveWrites := [decoded], auditLines := r.2 })
    else if t = Ping then
      .ok (wt, { masterWrites := [[Pong]] })
    else if t = SetEncoding then
      let d :=
        if payload = strBytes "base64" then Decoder.base64Codec
        else if payload = strBytes "null" then Decoder.nullCodec
        else wt.decoder
      .ok ({ wt with decoder := d }, {})
    else if t = ResizeTerminal then
      if wt.columns ≠ 0 ∧ wt.rows ≠ 0 then .ok (wt, {})
      else if payload = [] then
        .error "received malformed remote command for terminal resize: empty payload"
      else
        match decodeResizeArgs payload with
        | none => .error "received malformed data for terminal resize"
        | some args =>
            let rows := if wt.rows = 0 then args.2 else wt.rows
            let columns := if wt.columns = 0 then args.1 else wt.columns
            .ok (wt, { resizeCalls := [(columns, rows)] })
    else .error "unknown message type"

/-- Whether an event-handling result is a fatal error. -/
def isErr (r : Except String (WebTTY × Effects)) : Bool :=
  match r with
  | .error _ => true
  | .ok _ => false

/-! ### The handshake -/

/-- Modelled from the spec: `json.Marshal` of an integer (stdlib code)
is its decimal representation. -/
def jsonMarshalInt (n : Int) : List Nat := strBytes (toString n)

/-- `sendInitializeMessage`, with the master connection's write results
supplied by `io` (the value at `k` is `none` when the `k`-th write
succeeds, or the I/O error).  Returns the messages written in order and
the wrapped error of the first failing step, if any. -/
def sendInitializeMessage (wt : WebTTY) (io : Nat → Option String) :
    List (List Nat) × Option String :=
  match io 0 with
  | some e =>
      ([], some ("failed to send window title: failed to write to master: " ++ e))
  | none =>
    let m0 := SetWindowTitle :: wt.windowTitle
    match io 1 with
    | some e =>
        ([m0], some ("failed to send buffer size: failed to write to master: " ++ e))
    | none =>
      let m1 := SetBufferSize :: jsonMarshalInt (wt.bufferSize : Int)
      if 0 < wt.reconnect then
        match io 2 with
        | some e =>
            ([m0, m1],
             some ("failed to set reconnect: failed to write to master: " ++ e))
        | none =>
          let m2 := SetReconnect :: jsonMarshalInt wt.reconnect
          match wt.masterPrefs with
          | none => ([m0, m1, m2], none)
          | some p =>
            match io 3 with
            | some e =>
                ([m0, m1, m2],
                 some ("failed to set preferences: failed to write to master: " ++ e))
            | none => ([m0, m1, m2, SetPreferences :: p], none)
      else
        match wt.masterPrefs with
        | none => ([m0, m1], none)
        | some p =>
          match io 2 with
          | some e =>
              ([m0, m1],
               some ("failed to set preferences: failed to write to master: " ++ e))
          | none => ([m0, m1, SetPreferences :: p], none)

/-- The first phase of `Run`: the handshake, whose failure aborts `Run`
immediately with the error wrapped once more. -/
def runInitPhase (wt : WebTTY) (io : Nat → Option String) : Option String :=
  match (sendInitializeMessage wt io).2 with
  | some e => some ("failed to send initializing message: " ++ e)
  | none => none

/-- The maximum raw chunk size the back-to-front loop reads, computed in
`Run` from the configured buffer size. -/
def maxChunkSize (bufferSize : Nat) : Nat :=
  (bufferSize - 1) / 4 * 3

end Webtty

/-! ## Helper lemmas -/

namespace Webtty

theorem charToSextet_sextetToChar {n : Nat} (h : n < 64) :
    charToSextet (sextetToChar n) = some n := by
  revert h
  revert n
  decide

theorem sextetToChar_ne61 (n : Nat) : sextetToChar n ≠ 61 := by
  unfold sextetToChar
  split
  · omega
  · split
    · omega
    · split
      · omega
      · split <;> omega

theorem base64_roundtrip (l : List Nat) (h : ∀ b ∈ l, b < 256) :
    base64Decode (base64Encode l) = some l := by
  induction l using base64Encode.induct with
  | case1 => rfl
  | case2 a =>
      have ha : a < 256 := h a (by simp)
      have h1 : a / 4 < 64 := by omega
      have h2 : a % 4 * 16 < 64 := by omega
      simp only [base64Encode, base64Decode, charToSextet_sextetToChar h1,
        charToSextet_sextetToChar h2, and_self, reduceIte, Option.some_bind]
      simp
      omega
  | case3 a b =>
      have ha : a < 256 := h a (by simp)
      have hb : b < 256 := h b (by simp)
      have h1 : a / 4 < 64 := by omega
      have h2 : a % 4 * 16 + b / 16 < 64 := by omega
      have h3 : b % 16 * 4 < 64 := by omega
      simp only [base64Encode, base64Decode, charToSextet_sextetToChar h1,
        charToSextet_sextetToChar h2, charToSextet_sextetToChar h3,
        sextetToChar_ne61, and_false, false_and, and_true, and_self,
        reduceIte, if_false, Option.some_bind]
      simp
      constructor <;> omega
  | case4 a b c rest ih =>
      have ha : a < 256 := h a (by simp)
      have hb : b < 256 := h b (by simp)
      have hc : c < 256 := h c (by simp)
      have hrest : ∀ x ∈ rest, x < 256 := fun x hx => h x (by simp [hx])
      have h1 : a / 4 < 64 := by omega
      have h2 : a % 4 * 16 + b / 16 < 64 := by omega
      have h3 : b % 16 * 4 + c / 64 < 64 := by omega
      have h4 : c % 64 < 64 := by omega
      simp only [base64Encode, base64Decode, charToSextet_sextetToChar h1,
        charToSextet_sextetToChar h2, charToSextet_sextetToChar h3,
        charToSextet_sextetToChar h4, sextetToChar_ne61, ih hrest,
        and_false, false_and, and_true, and_self, reduceIte, if_false,
        Option.some_bind]
      simp
      refine ⟨by omega, by omega, by omega⟩

theorem base64Encode_length (l : List Nat) :
    (base64Encode l).length = 4 * ((l.length + 2) / 3) := by
  induction l using base64Encode.induct with
  | case1 => rfl
  | case2 a => simp [base64Encode]
  | case3 a b => simp [base64Encode]
  | case4 a b c rest ih =>
      simp only [base64Encode, List.length_cons, ih]
      omega

theorem base64Decode_length_aux (fuel : Nat) :
    ∀ l : List Nat, l.length ≤ fuel → ∀ out, base64Decode l = some out →
      out.length ≤ 3 * (l.length / 4) := by
  induction fuel with
  | zero =>
      intro l hl out h
      have hnil : l = [] := List.length_eq_zero.mp (Nat.le_zero.mp hl)
      subst hnil
      simp only [base64Decode, Option.some.injEq] at h
      simp [← h]
  | succ n ih =>
      intro l hl out h
      match l with
      | [] =>
          simp only [base64Decode, Option.some.injEq] at h
          simp [← h]
      | [c1] => simp [base64Decode] at h
      | [c1, c2] => simp [base64Decode] at h
      | [c1, c2, c3] => simp [base64Decode] at h
      | c1 :: c2 :: c3 :: c4 :: rest =>
          simp only [base64Decode] at h
          split at h
          · simp only [Option.bind_eq_some, Option.some.injEq] at h
            obtain ⟨s1, hc1, s2, hc2, hout⟩ := h
            rw [← hout]
            simp
            omega
          · split at h
            · simp only [Option.bind_eq_some, Option.some.injEq] at h
              obtain ⟨s1, hc1, s2, hc2, s3, hc3, hout⟩ := h
              rw [← hout]
              simp
              omega
            · simp only [Option.bind_eq_some, Option.some.injEq] at h
              obtain ⟨s1, hc1, s2, hc2, s3, hc3, s4, hc4, out', hrec, hout⟩ := h
              have hlen : rest.length ≤ n := by
                simp only [List.length_cons] at hl
                omega
              have hb := ih rest hlen out' hrec
              rw [← hout]
              simp only [List.length_cons]
              omega

theorem base64Decode_length (l out : List Nat) (h : base64Decode l = some out) :
    out.length ≤ 3 * (l.length / 4) :=
  base64Decode_length_aux l.length l (Nat.le_refl _) out h

theorem lastIndexByte_none {b : Nat} {l : List Nat}
    (h : lastIndexByte b l = none) : b ∉ l := by
  induction l with
  | nil => simp
  | cons c rest ih =>
      cases h' : lastIndexByte b rest with
      | some i =>
          simp only [lastIndexByte, h'] at h
          cases h
      | none =>
          simp only [lastIndexByte, h'] at h
          by_cases hcb : c = b
          · rw [if_pos hcb] at h
            cases h
          · simp only [List.mem_cons, not_or]
            exact ⟨fun hb => hcb hb.symm, ih h'⟩

theorem lastIndexByte_drop {b : Nat} {l : List Nat} :
    ∀ {pos : Nat}, lastIndexByte b l = some pos → b ∉ l.drop (pos + 1) := by
  induction l with
  | nil => intro pos h; cases h
  | cons c rest ih =>
      intro pos h
      cases h' : lastIndexByte b rest with
      | some i =>
          simp only [lastIndexByte, h', Option.some.injEq] at h
          rw [← h]
          simpa using ih h'
      | none =>
          simp only [lastIndexByte, h'] at h
          by_cases hcb : c = b
          · rw [if_pos hcb] at h
            simp only [Option.some.injEq] at h
            rw [← h]
            simpa using lastIndexByte_none h'
          · rw [if_neg hcb] at h
            cases h

end Webtty

/-! ## The claims -/

namespace Webtty

/-- A concrete bridge state used in witnesses and counterexamples; its
configuration fields match the defaults that `New` installs. -/
def wtBase : WebTTY :=
  { windowTitle := [], permitWrite := true, columns := 0, rows := 0,
    reconnect := 0, masterPrefs := none, username := "",
    auditEnabled := false, decoder := .nullCodec, bufferSize := 1024,
    feBuffer := [], beBuffer := [] }

/-- C1 (counterexample): with both dimensions fixed (columns 80, rows 24)
an empty resize payload produces no error — the handler returns `ok` with
no effects — refuting the claim that an empty payload is a fatal error
regardless of whether fixed columns/rows are configured. -/
theorem resize_fixed_empty_cex :
    handleMasterReadEvent { wtBase with columns := 80, rows := 24 }
      [ResizeTerminal] =
      .ok ({ wtBase with columns := 80, rows := 24 }, {}) := by
  rfl

/-- C1 (amended): `handleMasterReadEvent` returns a fatal error for a
resize message if and only if at least one configured dimension is zero
and the payload is empty or not decodable as the two numeric fields —
with both dimensions fixed the message is ignored without error, whatever
the payload. -/
theorem resize_error_iff (wt : WebTTY) (payload : List Nat) :
    isErr (handleMasterReadEvent wt (ResizeTerminal :: payload)) = true ↔
      (wt.columns = 0 ∨ wt.rows = 0) ∧
        (payload = [] ∨ decodeResizeArgs payload = none) := by
  by_cases hfix : wt.columns ≠ 0 ∧ wt.rows ≠ 0
  · simp [handleMasterReadEvent, ResizeTerminal, Input, Ping, SetEncoding,
      hfix, isErr]
    try tauto
  · by_cases hp : payload = []
    · subst hp
      simp [handleMasterReadEvent, ResizeTerminal, Input, Ping, SetEncoding,
        hfix, isErr]
      try tauto
    · cases hdec : decodeResizeArgs payload with
      | none =>
          simp [handleMasterReadEvent, ResizeTerminal, Input, Ping,
            SetEncoding, hfix, hp, hdec, isErr]
          try tauto
      | some args =>
          simp [handleMasterReadEvent, ResizeTerminal, Input, Ping,
            SetEncoding, hfix, hp, hdec, isErr]
          try tauto

/-- C2: when both configured dimensions are nonzero, processing a resize
message performs no resize call (and no other effect), returns no error,
and leaves the bridge state unchanged, for every payload — empty and
malformed payloads included. -/
theorem resize_bothFixed_noop (wt : WebTTY) (payload : List Nat)
    (hc : wt.columns ≠ 0) (hr : wt.rows ≠ 0) :
    handleMasterReadEvent wt (ResizeTerminal :: payload) = .ok (wt, {}) := by
  simp [handleMasterReadEvent, ResizeTerminal, Input, Ping, SetEncoding, hc, hr]

/-- C2 (witness): the theorem applied at a concrete fixed-geometry state
and a malformed payload. -/
theorem resize_bothFixed_noop_witness :
    handleMasterReadEvent { wtBase with columns := 80, rows := 24 }
      (ResizeTerminal :: strBytes "nonsense") =
      .ok ({ wtBase with columns := 80, rows := 24 }, {}) :=
  resize_bothFixed_noop _ _ (by decide) (by decide)

/-- C3: every front-bound message built by `handleSlaveReadEvent` starts
with the `Output` tag, its remainder base64-decodes back to exactly the
bytes read, and over any sequence of reads the decoded outputs
concatenate, in order, to the exact original input. -/
theorem slave_reads_decode_back (chunks : List (List Nat))
    (h : ∀ c ∈ chunks, ∀ b ∈ c, b < 256) :
    (∀ c ∈ chunks, (handleSlaveReadEvent c).head? = some Output ∧
        base64Decode ((handleSlaveReadEvent c).drop 1) = some c) ∧
    (chunks.map fun c =>
        (base64Decode ((handleSlaveReadEvent c).drop 1)).getD []).flatten =
      chunks.flatten := by
  have hdec : ∀ c ∈ chunks,
      base64Decode ((handleSlaveReadEvent c).drop 1) = some c := by
    intro c hc
    simp only [handleSlaveReadEvent, List.drop_succ_cons, List.drop_zero]
    exact base64_roundtrip c (h c hc)
  refine ⟨fun c hc => ⟨rfl, hdec c hc⟩, ?_⟩
  have hmap : (chunks.map fun c =>
      (base64Decode ((handleSlaveReadEvent c).drop 1)).getD []) =
      chunks.map id := by
    apply List.map_congr_left
    intro c hc
    rw [hdec c hc]
    rfl
  rw [hmap, List.map_id]

/-- C3 (witness): the theorem applied to a concrete two-read sequence. -/
theorem slave_reads_decode_back_witness :
    (([strBytes "hi", strBytes "there"] : List (List Nat)).map fun c =>
        (base64Decode ((handleSlaveReadEvent c).drop 1)).getD []).flatten =
      ([strBytes "hi", strBytes "there"] : List (List Nat)).flatten :=
  (slave_reads_decode_back [strBytes "hi", strBytes "there"] (by decide)).2

/-- C4 (counterexample): with configured buffer size 0, a read of 0 bytes
satisfies the chunk-size bound, yet the resulting message (the lone tag
byte) has length 1 > 0 — refuting the claim for every buffer size. -/
theorem message_fits_buffer_cex :
    List.length ([] : List Nat) ≤ maxChunkSize 0 ∧
      ¬ (handleSlaveReadEvent ([] : List Nat)).length ≤ 0 := by
  decide

/-- C4 (amended): for every configured buffer size of at least 1 and
every read of at most `maxChunkSize` bytes, the front-bound data message
(one tag byte plus the base64 encoding) has total length at most the
buffer size. -/
theorem message_fits_buffer (bufferSize : Nat) (data : List Nat)
    (hB : 1 ≤ bufferSize) (hn : data.length ≤ maxChunkSize bufferSize) :
    (handleSlaveReadEvent data).length ≤ bufferSize := by
  have hlen := base64Encode_length data
  simp only [handleSlaveReadEvent, List.length_cons, hlen]
  simp only [maxChunkSize] at hn
  omega

/-- C4 (witness): the theorem applied at buffer size 1024 and a concrete
five-byte read. -/
theorem message_fits_buffer_witness :
    1 ≤ 1024 ∧ (strBytes "hello").length ≤ maxChunkSize 1024 ∧
      (handleSlaveReadEvent (strBytes "hello")).length ≤ 1024 :=
  ⟨by decide, by decide,
   message_fits_buffer 1024 (strBytes "hello") (by decide) (by decide)⟩

/-- C5: a data (Input-tagged) message received while write permission is
disabled returns no error, performs no write to the back connection, and
leaves the whole bridge state unchanged. -/
theorem input_no_permit_noop (wt : WebTTY) (payload : List Nat)
    (h : wt.permitWrite = false) :
    handleMasterReadEvent wt (Input :: payload) = .ok (wt, {}) := by
  simp [handleMasterReadEvent, Input, h]

/-- C5 (witness): the theorem applied at a concrete read-only state and a
concrete payload. -/
theorem input_no_permit_noop_witness :
    handleMasterReadEvent { wtBase with permitWrite := false }
      (Input :: strBytes "bHM=") =
      .ok ({ wtBase with permitWrite := false }, {}) :=
  input_no_permit_noop _ _ (by decide)

/-- C6: a set-encoding message switches the active codec to the base64
decoder when the payload names it, to the identity codec when the payload
names that, and for every other payload leaves the codec field exactly as
it was; in all three cases no error is returned and nothing else in the
state changes. -/
theorem set_encoding_spec (wt : WebTTY) (payload : List Nat) :
    (payload = strBytes "base64" →
      handleMasterReadEvent wt (SetEncoding :: payload) =
        .ok ({ wt with decoder := Decoder.base64Codec }, {})) ∧
    (payload = strBytes "null" →
      handleMasterReadEvent wt (SetEncoding :: payload) =
        .ok ({ wt with decoder := Decoder.nullCodec }, {})) ∧
    (payload ≠ strBytes "base64" → payload ≠ strBytes "null" →
      handleMasterReadEvent wt (SetEncoding :: payload) = .ok (wt, {})) := by
  have hne : strBytes "null" ≠ strBytes "base64" := by decide
  refine ⟨fun h => ?_, fun h => ?_, fun h1 h2 => ?_⟩
  · subst h
    simp [handleMasterReadEvent, SetEncoding, Input, Ping]
  · subst h
    simp [handleMasterReadEvent, SetEncoding, Input, Ping, hne]
  · simp [handleMasterReadEvent, SetEncoding, Input, Ping, h1, h2]

/-- C6 (witness): the theorem applied at the concrete payload naming the
base64 codec. -/
theorem set_encoding_spec_witness :
    handleMasterReadEvent wtBase (SetEncoding :: strBytes "base64") =
      .ok ({ wtBase with decoder := Decoder.base64Codec }, {}) :=
  (set_encoding_spec wtBase (strBytes "base64")).1 rfl

/-- The concrete configuration used in the handshake witness: a ten
second reconnect interval and a preferences payload. -/
def wtHs : WebTTY :=
  { wtBase with reconnect := 10, masterPrefs := some (strBytes "prefs") }

/-- C7: the handshake writes, in order, set-window-title, then
set-buffer-size with the configured size, then set-reconnect exactly when
a positive reconnect interval is configured, then set-preferences exactly
when preference data is configured; and when the write of any step fails,
it stops there with the I/O error wrapped to name the failing step, and
`Run` returns that error wrapped once more. -/
theorem handshake_spec (wt : WebTTY) (io : Nat → Option String) :
    ((io 0 = none ∧ io 1 = none ∧ io 2 = none ∧ io 3 = none) →
      sendInitializeMessage wt io =
        ([SetWindowTitle :: wt.windowTitle,
          SetBufferSize :: jsonMarshalInt (wt.bufferSize : Int)] ++
         (if 0 < wt.reconnect then
            [SetReconnect :: jsonMarshalInt wt.reconnect] else []) ++
         (match wt.masterPrefs with
          | some p => [SetPreferences :: p]
          | none => []), none)) ∧
    (∀ e, io 0 = some e →
      sendInitializeMessage wt io =
        ([], some ("failed to send window title: failed to write to master: " ++ e))) ∧
    (∀ e, io 0 = none → io 1 = some e →
      sendInitializeMessage wt io =
        ([SetWindowTitle :: wt.windowTitle],
         some ("failed to send buffer size: failed to write to master: " ++ e))) ∧
    (∀ e, io 0 = none → io 1 = none → 0 < wt.reconnect → io 2 = some e →
      sendInitializeMessage wt io =
        ([SetWindowTitle :: wt.windowTitle,
          SetBufferSize :: jsonMarshalInt (wt.bufferSize : Int)],
         some ("failed to set reconnect: failed to write to master: " ++ e))) ∧
    (∀ e p, io 0 = none → io 1 = none → wt.masterPrefs = some p →
      (0 < wt.reconnect → io 2 = none) →
      io (if 0 < wt.reconnect then 3 else 2) = some e →
      sendInitializeMessage wt io =
        ([SetWindowTitle :: wt.windowTitle,
          SetBufferSize :: jsonMarshalInt (wt.bufferSize : Int)] ++
         (if 0 < wt.reconnect then
            [SetReconnect :: jsonMarshalInt wt.reconnect] else []),
         some ("failed to set preferences: failed to write to master: " ++ e))) ∧
    (∀ msgs e, sendInitializeMessage wt io = (msgs, some e) →
      runInitPhase wt io = some ("failed to send initializing message: " ++ e)) := by
  refine ⟨?_, ?_, ?_, ?_, ?_, ?_⟩
  · rintro ⟨h0, h1, h2, h3⟩
    by_cases hr : 0 < wt.reconnect
    · cases hp : wt.masterPrefs with
      | none => simp [sendInitializeMessage, h0, h1, h2, h3, hr, hp]
      | some p => simp [sendInitializeMessage, h0, h1, h2, h3, hr, hp]
    · cases hp : wt.masterPrefs with
      | none => simp [sendInitializeMessage, h0, h1, h2, h3, hr, hp]
      | some p => simp [sendInitializeMessage, h0, h1, h2, h3, hr, hp]
  · intro e h0
    simp [sendInitializeMessage, h0]
  · intro e h0 h1
    simp [sendInitializeMessage, h0, h1]
  · intro e h0 h1 hr h2
    simp [sendInitializeMessage, h0, h1, hr, h2]
  · intro e p h0 h1 hp hifr hfail
    by_cases hr : 0 < wt.reconnect
    · rw [if_pos hr] at hfail
      simp [sendInitializeMessage, h0, h1, hp, hr, hifr hr, hfail]
    · rw [if_neg hr] at hfail
      simp [sendInitializeMessage, h0, h1, hp, hr, hfail]
  · intro msgs e h
    simp [runInitPhase, h]

/-- C7 (witness): the success conjunct applied at a configuration with a
reconnect interval and preferences, all writes succeeding. -/
theorem handshake_spec_witness :
    sendInitializeMessage wtHs (fun _ => none) =
      ([SetWindowTitle :: wtHs.windowTitle,
        SetBufferSize :: jsonMarshalInt (wtHs.bufferSize : Int)] ++
       (if 0 < wtHs.reconnect then
          [SetReconnect :: jsonMarshalInt wtHs.reconnect] else []) ++
       (match wtHs.masterPrefs with
        | some p => [SetPreferences :: p]
        | none => []), none) :=
  (handshake_spec wtHs (fun _ => none)).1 ⟨rfl, rfl, rfl, rfl⟩

/-- The C8 audit scenario: with auditing enabled, feed the front-direction
sink the bytes of the input ls-then-carriage-return, then in a later call
a lone carriage return.  The first component is the final state, the
second the log lines emitted in total, in order. -/
def auditScenario : WebTTY × List (List Nat) :=
  let wt := { wtBase with auditEnabled := true }
  let r1 := auditLogs wt (strBytes "ls\r") true
  let r2 := auditLogs r1.1 (strBytes "\r") true
  (r2.1, r1.2 ++ r2.2)

/-- C8 (counterexample): the scenario emits two log lines — the second
call finds the lone carriage return at position 0 and emits an empty
line — so the total is not one line as claimed. -/
theorem audit_two_lines_cex :
    auditScenario.2 = [strBytes "ls", []] ∧ auditScenario.2.length ≠ 1 := by
  decide

/-- C8 (amended): the scenario emits exactly two log lines in total: the
first with message ls (escape-stripped), the second empty. -/
theorem audit_two_lines :
    auditScenario.2 = [strBytes "ls", []] := by
  decide

/-- C9: `auditLogs` preserves the accumulator invariant — if neither
direction's retained buffer contains a carriage-return byte before a
call, neither does after it: the call either appends CR-free bytes or
flushes through the last CR and retains only the bytes strictly after
it. -/
theorem audit_buffer_no_cr (wt : WebTTY) (buffer : List Nat) (fromFe : Bool)
    (hfe : 13 ∉ wt.feBuffer) (hbe : 13 ∉ wt.beBuffer) :
    13 ∉ (auditLogs wt buffer fromFe).1.feBuffer ∧
      13 ∉ (auditLogs wt buffer fromFe).1.beBuffer := by
  by_cases ha : wt.auditEnabled
  · cases fromFe with
    | true =>
        cases hidx : lastIndexByte 13 (wt.feBuffer ++ ansiStrip buffer) with
        | some pos =>
            simp only [auditLogs, ha, hidx, reduceIte]
            exact ⟨lastIndexByte_drop hidx, hbe⟩
        | none =>
            simp only [auditLogs, ha, hidx, reduceIte]
            exact ⟨lastIndexByte_none hidx, hbe⟩
    | false =>
        cases hidx : lastIndexByte 13 (wt.beBuffer ++ ansiStrip buffer) with
        | some pos =>
            simp only [auditLogs, ha, hidx, reduceIte]
            exact ⟨hfe, lastIndexByte_drop hidx⟩
        | none =>
            simp only [auditLogs, ha, hidx, reduceIte]
            exact ⟨hfe, lastIndexByte_none hidx⟩
  · simp only [Bool.not_eq_true] at ha
    simp only [auditLogs, ha, reduceIte]
    exact ⟨hfe, hbe⟩

/-- C9 (witness): the theorem applied at empty accumulators and an input
containing one carriage return. -/
theorem audit_buffer_no_cr_witness :
    13 ∉ ([] : List Nat) ∧
      13 ∉ (auditLogs { wtBase with auditEnabled := true }
        (strBytes "ls\rmo") true).1.feBuffer :=
  ⟨by decide,
   (audit_buffer_no_cr { wtBase with auditEnabled := true }
      (strBytes "ls\rmo") true (by decide) (by decide)).1⟩

/-- C10: for a data message of length L = payload length + 1, a
successful decode writes at most L bytes into the buffer of size L — the
identity codec writes exactly the payload length (L - 1) and the base64
codec at most three quarters of it — so the slices of the decode buffer
stay in bounds. -/
theorem decode_output_bounds (d : Decoder) (payload out : List Nat)
    (h : d.decode payload = some out) :
    out.length ≤ payload.length + 1 ∧
    (d = Decoder.nullCodec → out.length = payload.length) ∧
    (d = Decoder.base64Codec → out.length ≤ 3 * (payload.length / 4)) := by
  cases d with
  | nullCodec =>
      simp only [Decoder.decode, Option.some.injEq] at h
      subst h
      exact ⟨by omega, fun _ => rfl, fun hcontra => Decoder.noConfusion hcontra⟩
  | base64Codec =>
      simp only [Decoder.decode] at h
      have hb := base64Decode_length payload out h
      exact ⟨by omega, fun hcontra => Decoder.noConfusion hcontra, fun _ => hb⟩

/-- C10 (witness): the theorem applied to the base64 codec at a concrete
four-byte payload decoding to two bytes. -/
theorem decode_output_bounds_witness :
    Decoder.decode Decoder.base64Codec (strBytes "bHM=") =
        some (strBytes "ls") ∧
      (strBytes "ls").length ≤ (strBytes "bHM=").length + 1 :=
  ⟨by decide,
   (decode_output_bounds Decoder.base64Codec (strBytes "bHM=")
      (strBytes "ls") (by decide)).1⟩

end Webtty
